import Mathlib

/-!
Verification development for the `dns_mapper` repository.

The definitions below are a shallow embedding of the Python sources:

* `dns_mapper/core/recursive_engine.py` — the recursive discovery engine
  (`RecursiveEngine.analyze` / `RecursiveEngine._recursive_analyze`);
* `dns_mapper/strategies/base.py` — `Strategy.should_exclude`;
* `dns_mapper/dns_functions.py` — `is_valid_domain`, `is_valid_ip`;
* `dns_mapper/strategies/tld_crawler.py`, `srv_scanner.py`, `reverse_dns.py`
  — the concrete strategies that the claims mention.

Python sets of strings are modelled as insertion-ordered duplicate-free
lists (the only observations the program makes of them are membership,
size, and a final `sorted(...)`, all of which agree with this model).
Python dictionaries returned by `analyze` are modelled as structures.
A strategy's `discover` that can raise is modelled in `Except String`;
the engine's `try/except` around each strategy call is modelled by
pattern-matching on that `Except`.
-/

namespace DnsMapper

/-- Python `needle == hay[:len(needle)]` on character lists
(used to build substring containment). -/
def pfx : List Char → List Char → Bool
  | [], _ => true
  | _ :: _, [] => false
  | a :: as, b :: bs => a == b && pfx as bs

/-- Python's substring test `needle in hay` on character lists. -/
def subOf : List Char → List Char → Bool
  | n, [] => n.isEmpty
  | n, c :: t => pfx n (c :: t) || subOf n t

/-- Embedding of `Strategy.should_exclude` (strategies/base.py line 37):
`any(excluded in domain for excluded in self.exclude_domains)`. -/
def should_exclude (excl : List String) (domain : String) : Bool :=
  excl.any (fun e => subOf e.data domain.data)

/-- Python `s.rstrip('.')`. -/
def rstripDots (s : String) : String :=
  ⟨(s.data.reverse.dropWhile (fun c => c = '.')).reverse⟩

/-- Splitting a character list at every separator position; empty
pieces are kept (the semantics of Python `str.split(sep)` for a
one-character separator). -/
def splitOnP (p : Char → Bool) : List Char → List (List Char)
  | [] => [[]]
  | c :: t =>
    if p c then [] :: splitOnP p t
    else match splitOnP p t with
      | h :: t' => (c :: h) :: t'
      | [] => [[c]]

/-- Python `s.split(sep)` for a one-character separator. -/
def pySplit (sep : Char) (s : String) : List String :=
  (splitOnP (fun c => c = sep) s.data).map (fun l => ⟨l⟩)

/-- Python `s.lower()` (ASCII). -/
def pyLower (s : String) : String := ⟨s.data.map Char.toLower⟩

/-- Python `s.strip()`: whitespace removed from both ends. -/
def pyStrip (s : String) : String :=
  ⟨((s.data.dropWhile Char.isWhitespace).reverse.dropWhile
      Char.isWhitespace).reverse⟩

/-- Numeric value of a digit string (Python `int(s)` for guarded
all-digit strings). -/
def digitsToNat (l : List Char) : Nat :=
  l.foldl (fun n c => n * 10 + (c.toNat - 48)) 0

/-- Embedding of `is_valid_domain` (dns_functions.py lines 51-61).
`part[0].isalnum()` is rendered with `Char.isAlphanum`
(ASCII-faithful; all inputs in this development are ASCII). -/
def is_valid_domain (domain : String) : Bool :=
  if domain = "" || domain.length > 253 then false
  else
    let parts := pySplit '.' (rstripDots domain)
    decide (parts.length ≥ 2) &&
      parts.all (fun part =>
        part ≠ "" && decide (part.length ≤ 63) &&
          (part.data.head?.elim false Char.isAlphanum))

/-- One dotted-decimal IPv4 octet as accepted by Python's
`ipaddress.ip_address`: decimal digits, ≤ 3 of them, value ≤ 255,
no leading zero. -/
def isIpv4Octet (s : String) : Bool :=
  s ≠ "" && decide (s.length ≤ 3) && s.data.all Char.isDigit &&
    (decide (s.length = 1) || s.data.head? ≠ some '0') &&
    decide (digitsToNat s.data ≤ 255)

/-- Hexadecimal group of an IPv6 address (1 to 4 hex digits). -/
def isHexGroup (s : String) : Bool :=
  s ≠ "" && decide (s.length ≤ 4) &&
    s.data.all (fun c =>
      c.isDigit || ('a' ≤ c && c ≤ 'f') || ('A' ≤ c && c ≤ 'F'))

/-- IPv6 acceptance, an approximation of `ipaddress.ip_address`:
eight colon-separated hex groups, or fewer groups with a single `::`
abbreviation.  (No claim in this development exercises IPv6 inputs;
IPv4 and the negative cases used by the claims are exact.) -/
def is_valid_ipv6 (s : String) : Bool :=
  let parts := pySplit ':' s
  let emptyCount := (parts.filter (fun p => p = "")).length
  let groups := parts.filter (fun p => p ≠ "")
  if !(s.data.contains ':') then false
  else if emptyCount = 0 then
    decide (parts.length = 8) && parts.all isHexGroup
  else
    decide (emptyCount ≤ 3) && decide (groups.length ≤ 7) &&
      groups.all isHexGroup && subOf "::".data s.data

/-- Embedding of `is_valid_ip` (dns_functions.py lines 64-71): Python
`ipaddress.ip_address` accepts the string as IPv4 or IPv6. -/
def is_valid_ip (s : String) : Bool :=
  (let parts := pySplit '.' s
   decide (parts.length = 4) && parts.all isIpv4Octet) || is_valid_ipv6 s

/-- A strategy result after the engine's normalization
(recursive_engine.py lines 112-125): the `type`, `value` and `source`
fields.  The normalized `metadata` is also computed there but is never
used afterwards (neither the relationship nor the graph entry records
it), so it is omitted from the engine-level model. -/
structure RawResult where
  rtype : String
  value : String
  source : String
deriving DecidableEq, Repr

/-- A relationship record (recursive_engine.py lines 134-140):
`{'from': target, 'to': value, 'type': type, 'source': source,
'depth': depth}`.  `from` is a Lean keyword, hence `rfrom`/`rto`. -/
structure Rel where
  rfrom : String
  rto : String
  rtype : String
  source : String
  depth : Nat
deriving DecidableEq, Repr

/-- An adjacency entry (recursive_engine.py lines 144-148). -/
structure GraphEntry where
  value : String
  gtype : String
  source : String
deriving DecidableEq, Repr

/-- The run-scoped mutable state of `RecursiveEngine`:
`self.visited`, `self.all_results` and `self.graph`.
`expandedLog` is a ghost log of the targets on which the strategies
were actually invoked — it mirrors the progress line printed at
recursive_engine.py line 97 and changes no behaviour. -/
structure EngineState where
  visited : List String
  domains : List String
  ips : List String
  relationships : List Rel
  graph : List (String × List GraphEntry)
  expandedLog : List String
deriving DecidableEq, Repr

/-- The context dict built at recursive_engine.py lines 100-104. -/
structure Ctx where
  depth : Nat
  parent : Option String
  visited : List String

/-- A strategy, at the engine boundary: `discover(target, context)`
either raises (`Except.error`) or returns a finite collection of
normalized results.  (Python returns a set; the engine only iterates
it, so a list models it.) -/
def StrategyFn := String → Ctx → Except String (List RawResult)

/-- Engine construction parameters (`strategies`, `max_depth`).
`exclude_domains` is stored by the Python engine but never read by it
(exclusion is applied inside the strategies), so it is not part of the
engine model. -/
structure EngineCfg where
  strategies : List StrategyFn
  maxDepth : Nat

/-- Python `set.add` for the string sets `domains` / `ips`:
insertion-ordered, duplicate-free. -/
def addElem (l : List String) (x : String) : List String :=
  if x ∈ l then l else l ++ [x]

/-- Embedding of `self.graph[target].append(entry)` on a `defaultdict(list)`
(recursive_engine.py lines 144-148), keyed in insertion order. -/
def addToGraph : List (String × List GraphEntry) → String → GraphEntry →
    List (String × List GraphEntry)
  | [], k, e => [(k, [e])]
  | (k', es) :: rest, k, e =>
    if k' = k then (k', es ++ [e]) :: rest
    else (k', es) :: addToGraph rest k e

/-- Processing of one normalized strategy result
(recursive_engine.py lines 127-148): classify into `domains`/`ips`,
append the relationship, append the adjacency entry. -/
def processResult (target : String) (depth : Nat) (st : EngineState)
    (r : RawResult) : EngineState :=
  let st1 :=
    if r.rtype = "domain" then { st with domains := addElem st.domains r.value }
    else if r.rtype = "ip" then { st with ips := addElem st.ips r.value }
    else st
  let st2 := { st1 with relationships :=
    st1.relationships ++ [(⟨target, r.value, r.rtype, r.source, depth⟩ : Rel)] }
  { st2 with graph :=
      addToGraph st2.graph target (⟨r.value, r.rtype, r.source⟩ : GraphEntry) }

/-- One iteration of the strategy loop (recursive_engine.py lines
108-157): call `strategy.discover(target, context)` inside `try`; on an
exception the state and the `discovered` accumulator are left unchanged;
on success every returned result is processed and its value appended to
`discovered` (line 151). -/
def stratStep (target : String) (depth : Nat) (ctx : Ctx)
    (pr : EngineState × List String) (s : StrategyFn) :
    EngineState × List String :=
  match s target ctx with
  | .error _ => pr
  | .ok results =>
    results.foldl
      (fun q r => (processResult target depth q.1 r, q.2 ++ [r.value])) pr

/-- The full strategy loop over the roster, starting from an empty
`discovered` list (recursive_engine.py lines 107-157). -/
def runStrategies (strats : List StrategyFn) (target : String) (depth : Nat)
    (ctx : Ctx) (st : EngineState) : EngineState × List String :=
  strats.foldl (stratStep target depth ctx) (st, [])

mutual

/-- Embedding of `RecursiveEngine._recursive_analyze` (recursive_engine.py lines
76-162).  Terminates because `max_depth + 1 - depth` strictly decreases
at each recursive call (the guard at line 86 stops any call with
`depth > max_depth`). -/
def recursiveAnalyze (cfg : EngineCfg) (target : String) (depth : Nat)
    (parent : Option String) (st : EngineState) : EngineState :=
  if h : depth > cfg.maxDepth then st
  else if target ∈ st.visited then st
  else
    let st1 := { st with visited := st.visited ++ [target],
                         expandedLog := st.expandedLog ++ [target] }
    let pr := runStrategies cfg.strategies target depth
                ⟨depth, parent, st1.visited⟩ st1
    recurseChildren cfg pr.2 target (depth + 1) pr.1
termination_by (cfg.maxDepth + 1 - depth, 0)

/-- The recursion loop over the discovered values
(recursive_engine.py lines 160-162). -/
def recurseChildren (cfg : EngineCfg) (items : List String) (parent : String)
    (depth : Nat) (st : EngineState) : EngineState :=
  match items with
  | [] => st
  | d :: rest =>
    let st' := if d ∈ st.visited then st
               else recursiveAnalyze cfg d depth (some parent) st
    recurseChildren cfg rest parent depth st'
termination_by (cfg.maxDepth + 1 - depth, items.length + 1)

end

/-- The `stats` record of the returned dictionary
(recursive_engine.py lines 69-73). -/
structure Stats where
  total_domains : Nat
  total_ips : Nat
  total_relationships : Nat
deriving DecidableEq, Repr

/-- The dictionary returned by `analyze`
(recursive_engine.py lines 63-74). -/
structure AnalyzeResult where
  initial_domain : String
  domains : List String
  ips : List String
  relationships : List Rel
  graph : List (String × List GraphEntry)
  stats : Stats
deriving DecidableEq, Repr

/-- The engine state right after construction, and also right after the
reset at the start of `analyze` (recursive_engine.py lines 52-58). -/
def emptyState : EngineState := ⟨[], [], [], [], [], []⟩

/-- Embedding of `RecursiveEngine.analyze` on an engine instance whose run-scoped
state is `prior` (recursive_engine.py lines 39-74).  Lines 52-58 clear
`visited` and `graph` and rebuild `all_results` before the recursion,
so `prior` is discarded entirely; the pair returned is (the result
dictionary, the engine state left behind for the next call). -/
def analyzeWithState (cfg : EngineCfg) (prior : EngineState)
    (initial_domain : String) : AnalyzeResult × EngineState :=
  let _ := prior
  let st := recursiveAnalyze cfg initial_domain 0 none emptyState
  (⟨initial_domain,
    List.insertionSort (· ≤ ·) st.domains,
    List.insertionSort (· ≤ ·) st.ips,
    st.relationships,
    st.graph,
    ⟨st.domains.length, st.ips.length, st.relationships.length⟩⟩, st)

/-- The result of `analyze` on a freshly constructed engine. -/
def analyze (cfg : EngineCfg) (initial_domain : String) : AnalyzeResult :=
  (analyzeWithState cfg emptyState initial_domain).1

/-! ### Helper lemmas about the engine's primitive steps -/

theorem mem_addElem_self (l : List String) (x : String) : x ∈ addElem l x := by
  unfold addElem; split
  · assumption
  · simp

theorem addElem_subset (l : List String) (x : String) : l ⊆ addElem l x := by
  unfold addElem; split
  · exact fun _ h => h
  · exact fun a h => List.mem_append_left _ h

theorem addElem_nodup (l : List String) (x : String) (h : l.Nodup) :
    (addElem l x).Nodup := by
  unfold addElem; split
  · exact h
  · next hx => simp [List.nodup_append, h, hx]

theorem processResult_visited (t : String) (d : Nat) (st : EngineState)
    (r : RawResult) : (processResult t d st r).visited = st.visited := by
  unfold processResult
  by_cases h1 : r.rtype = "domain" <;> by_cases h2 : r.rtype = "ip" <;>
    simp_all

theorem processResult_expandedLog (t : String) (d : Nat) (st : EngineState)
    (r : RawResult) : (processResult t d st r).expandedLog = st.expandedLog := by
  unfold processResult
  by_cases h1 : r.rtype = "domain" <;> by_cases h2 : r.rtype = "ip" <;>
    simp_all

theorem processResult_relationships (t : String) (d : Nat) (st : EngineState)
    (r : RawResult) : (processResult t d st r).relationships
      = st.relationships ++ [(⟨t, r.value, r.rtype, r.source, d⟩ : Rel)] := by
  unfold processResult
  by_cases h1 : r.rtype = "domain" <;> by_cases h2 : r.rtype = "ip" <;>
    simp_all

theorem processResult_domains_subset (t : String) (d : Nat) (st : EngineState)
    (r : RawResult) : st.domains ⊆ (processResult t d st r).domains := by
  unfold processResult
  split
  · exact addElem_subset _ _
  · split <;> exact fun a h => h

theorem processResult_ips_subset (t : String) (d : Nat) (st : EngineState)
    (r : RawResult) : st.ips ⊆ (processResult t d st r).ips := by
  unfold processResult
  split
  · exact fun a h => h
  · split
    · exact addElem_subset _ _
    · exact fun a h => h

/-- Fold-preservation: an invariant stable under the step function is
stable under `List.foldl`. -/
theorem foldl_pres {α β : Type} (P : β → Prop) (f : β → α → β) :
    ∀ (l : List α) (init : β), P init → (∀ b a, P b → P (f b a)) →
      P (List.foldl f init l)
  | [], _, h, _ => h
  | a :: l, init, h, hstep => foldl_pres P f l (f init a) (hstep init a h) hstep

/-- State-component preservation through one strategy invocation: any
invariant stable under `processResult` at this `(target, depth)` is
stable under `stratStep`. -/
theorem stratStep_preserve (P : EngineState → Prop) (t : String) (d : Nat)
    (ctx : Ctx) (hP : ∀ st r, P st → P (processResult t d st r))
    (pr : EngineState × List String) (s : StrategyFn) (h : P pr.1) :
    P (stratStep t d ctx pr s).1 := by
  unfold stratStep
  split
  · exact h
  · next results _ =>
      exact foldl_pres (fun q : EngineState × List String => P q.1)
        (fun q r => (processResult t d q.1 r, q.2 ++ [r.value])) results pr h
        (fun b a hb => hP b.1 a hb)

/-- Invariant preservation through the whole strategy loop. -/
theorem runStrategies_preserve (P : EngineState → Prop) (t : String) (d : Nat)
    (ctx : Ctx) (hP : ∀ st r, P st → P (processResult t d st r))
    (strats : List StrategyFn) (st : EngineState) (h : P st) :
    P (runStrategies strats t d ctx st).1 := by
  unfold runStrategies
  exact foldl_pres (fun q => P q.1) _ _ (st, []) h
    (fun b a hb => stratStep_preserve P t d ctx hP b a hb)

theorem runStrategies_visited (strats : List StrategyFn) (t : String) (d : Nat)
    (ctx : Ctx) (st : EngineState) :
    (runStrategies strats t d ctx st).1.visited = st.visited ∧
    (runStrategies strats t d ctx st).1.expandedLog = st.expandedLog := by
  exact runStrategies_preserve
    (fun s => s.visited = st.visited ∧ s.expandedLog = st.expandedLog) t d ctx
    (fun s r hs =>
      ⟨by rw [processResult_visited]; exact hs.1,
       by rw [processResult_expandedLog]; exact hs.2⟩)
    strats st ⟨rfl, rfl⟩

/-! ### Generic invariant preservation through the recursion -/

mutual

/-- Any state invariant stable under (a) marking a fresh target visited
and (b) the strategy loop at an in-bound depth is an invariant of
`_recursive_analyze`. -/
theorem recursiveAnalyze_preserve (cfg : EngineCfg) (P : EngineState → Prop)
    (hmark : ∀ st t, P st → t ∉ st.visited →
      P { st with visited := st.visited ++ [t],
                  expandedLog := st.expandedLog ++ [t] })
    (hrun : ∀ t depth ctx st, P st → ¬ depth > cfg.maxDepth →
      P (runStrategies cfg.strategies t depth ctx st).1)
    (target : String) (depth : Nat) (parent : Option String) (st : EngineState)
    (hP : P st) : P (recursiveAnalyze cfg target depth parent st) := by
  rw [recursiveAnalyze]
  split
  · exact hP
  · split
    · exact hP
    · next h hv =>
        exact recurseChildren_preserve cfg P hmark hrun _ _ _ _
          (hrun _ _ _ _ (hmark st target hP hv) h)
termination_by (cfg.maxDepth + 1 - depth, 0)

theorem recurseChildren_preserve (cfg : EngineCfg) (P : EngineState → Prop)
    (hmark : ∀ st t, P st → t ∉ st.visited →
      P { st with visited := st.visited ++ [t],
                  expandedLog := st.expandedLog ++ [t] })
    (hrun : ∀ t depth ctx st, P st → ¬ depth > cfg.maxDepth →
      P (runStrategies cfg.strategies t depth ctx st).1)
    (items : List String) (parent : String) (depth : Nat) (st : EngineState)
    (hP : P st) : P (recurseChildren cfg items parent depth st) := by
  match items with
  | [] => rw [recurseChildren]; exact hP
  | d :: rest =>
    rw [recurseChildren]
    refine recurseChildren_preserve cfg P hmark hrun rest parent depth _ ?_
    split
    · exact hP
    · exact recursiveAnalyze_preserve cfg P hmark hrun d depth (some parent) st hP
termination_by (cfg.maxDepth + 1 - depth, items.length + 1)

end

/-! ### Instantiated invariants -/

/-- The final engine state of a run of `analyze`. -/
theorem analyzeWithState_snd (cfg : EngineCfg) (prior : EngineState)
    (t0 : String) : (analyzeWithState cfg prior t0).2
      = recursiveAnalyze cfg t0 0 none emptyState := rfl

/-- A call on an already-visited target returns at once, leaving the
state untouched (recursive_engine.py lines 90-91). -/
theorem recursiveAnalyze_visited_stop (cfg : EngineCfg) (target : String)
    (depth : Nat) (parent : Option String) (st : EngineState)
    (h : target ∈ st.visited) :
    recursiveAnalyze cfg target depth parent st = st := by
  rw [recursiveAnalyze]
  simp [h]

/-- A call that exceeds the depth bound returns at once, leaving the
state untouched (recursive_engine.py lines 86-87). -/
theorem recursiveAnalyze_depth_stop (cfg : EngineCfg) (target : String)
    (depth : Nat) (parent : Option String) (st : EngineState)
    (h : depth > cfg.maxDepth) :
    recursiveAnalyze cfg target depth parent st = st := by
  rw [recursiveAnalyze]
  split
  · rfl
  · next hd => exact absurd h hd

/-- The expansion log stays duplicate-free and inside the visited set. -/
theorem expandedLog_invariant (cfg : EngineCfg) (target : String)
    (depth : Nat) (parent : Option String) (st : EngineState)
    (h : st.expandedLog.Nodup ∧ ∀ x ∈ st.expandedLog, x ∈ st.visited) :
    (recursiveAnalyze cfg target depth parent st).expandedLog.Nodup ∧
    ∀ x ∈ (recursiveAnalyze cfg target depth parent st).expandedLog,
      x ∈ (recursiveAnalyze cfg target depth parent st).visited := by
  refine recursiveAnalyze_preserve cfg
    (fun s => s.expandedLog.Nodup ∧ ∀ x ∈ s.expandedLog, x ∈ s.visited)
    ?_ ?_ target depth parent st h
  · intro s t hs ht
    refine ⟨?_, ?_⟩
    · exact List.Nodup.append hs.1 (List.nodup_singleton t)
        (by simpa using fun hmem => ht (hs.2 t hmem))
    · intro x hx
      rcases List.mem_append.1 hx with hx | hx
      · exact List.mem_append_left _ (hs.2 x hx)
      · exact List.mem_append_right _ hx
  · intro t d ctx s hs _
    rcases runStrategies_visited cfg.strategies t d ctx s with ⟨hv, he⟩
    rw [hv, he]
    exact hs

/-- All recorded relationships respect the depth bound. -/
theorem relationships_depth_invariant (cfg : EngineCfg) (target : String)
    (depth : Nat) (parent : Option String) (st : EngineState)
    (h : ∀ r ∈ st.relationships, r.depth ≤ cfg.maxDepth) :
    ∀ r ∈ (recursiveAnalyze cfg target depth parent st).relationships,
      r.depth ≤ cfg.maxDepth := by
  refine recursiveAnalyze_preserve cfg
    (fun s => ∀ r ∈ s.relationships, r.depth ≤ cfg.maxDepth)
    ?_ ?_ target depth parent st h
  · intro s t hs _
    exact hs
  · intro t d ctx s hs hd
    refine runStrategies_preserve
      (fun s => ∀ r ∈ s.relationships, r.depth ≤ cfg.maxDepth) t d ctx ?_
      cfg.strategies s hs
    intro s' r hs' r' hr'
    rw [processResult_relationships] at hr'
    rcases List.mem_append.1 hr' with hr' | hr'
    · exact hs' r' hr'
    · simp only [List.mem_singleton] at hr'
      subst hr'
      show d ≤ cfg.maxDepth
      omega

/-! ### Claims C1 and C2 -/

/-- C1: for every engine configuration (any finite strategy roster,
any `maxDepth`) and every initial target, `analyze` terminates — it is
a total Lean function, whose termination proof is the strictly
decreasing measure `max_depth + 1 - depth` — and no target is expanded
more than once per run: a call on a target already in the visited set
returns immediately with the state unchanged (even when strategies
produce cycles), and the log of targets actually expanded (`expandedLog`,
mirroring the per-expansion progress print) contains no duplicates. -/
theorem analyze_terminates_and_expands_once (cfg : EngineCfg) (t0 : String) :
    (∀ target depth parent st, target ∈ st.visited →
        recursiveAnalyze cfg target depth parent st = st) ∧
    (analyzeWithState cfg emptyState t0).2.expandedLog.Nodup := by
  constructor
  · intro target depth parent st h
    exact recursiveAnalyze_visited_stop cfg target depth parent st h
  · rw [analyzeWithState_snd]
    exact (expandedLog_invariant cfg t0 0 none emptyState
      ⟨List.nodup_nil, by simp [emptyState]⟩).1

/-- Witness for C1 at a concrete configuration: the already-visited
guard fires on a concrete state, and a concrete cyclic run has a
duplicate-free expansion log. -/
theorem analyze_terminates_and_expands_once_witness :
    recursiveAnalyze ⟨[], 3⟩ "a.com" 1 none
        ⟨["a.com"], [], [], [], [], ["a.com"]⟩
      = ⟨["a.com"], [], [], [], [], ["a.com"]⟩ ∧
    (analyzeWithState ⟨[], 3⟩ emptyState "a.com").2.expandedLog.Nodup := by
  refine ⟨?_, (analyze_terminates_and_expands_once ⟨[], 3⟩ "a.com").2⟩
  exact (analyze_terminates_and_expands_once ⟨[], 3⟩ "a.com").1 "a.com" 1 none
    ⟨["a.com"], [], [], [], [], ["a.com"]⟩ (by simp)

/-- C2: every relationship in the result of `analyze` has
`depth ≤ maxDepth`, and a call of `_recursive_analyze` with
`depth > maxDepth` returns immediately — the state is unchanged, so the
target is not marked visited and no relationship is recorded. -/
theorem analyze_depth_bound (cfg : EngineCfg) (t0 : String) :
    (∀ r ∈ (analyze cfg t0).relationships, r.depth ≤ cfg.maxDepth) ∧
    (∀ target depth parent st, depth > cfg.maxDepth →
        recursiveAnalyze cfg target depth parent st = st) := by
  constructor
  · have h := relationships_depth_invariant cfg t0 0 none emptyState
      (by simp [emptyState])
    intro r hr
    exact h r hr
  · intro target depth parent st h
    exact recursiveAnalyze_depth_stop cfg target depth parent st h

/-- Witness for C2 at a concrete configuration: a concrete run's
relationships all satisfy the bound, and a concrete over-depth call
returns its state unchanged. -/
theorem analyze_depth_bound_witness :
    (∀ r ∈ (analyze ⟨[], 2⟩ "a.com").relationships, r.depth ≤ 2) ∧
    recursiveAnalyze ⟨[], 2⟩ "b.com" 3 none emptyState = emptyState := by
  refine ⟨(analyze_depth_bound ⟨[], 2⟩ "a.com").1, ?_⟩
  exact (analyze_depth_bound ⟨[], 2⟩ "a.com").2 "b.com" 3 none emptyState
    (by decide)

theorem processResult_domains (t : String) (d : Nat) (st : EngineState)
    (r : RawResult) : (processResult t d st r).domains =
      if r.rtype = "domain" then addElem st.domains r.value else st.domains := by
  unfold processResult
  by_cases h1 : r.rtype = "domain" <;> by_cases h2 : r.rtype = "ip" <;> simp_all

theorem processResult_ips (t : String) (d : Nat) (st : EngineState)
    (r : RawResult) : (processResult t d st r).ips =
      if r.rtype = "ip" ∧ r.rtype ≠ "domain" then addElem st.ips r.value
      else st.ips := by
  unfold processResult
  by_cases h1 : r.rtype = "domain" <;> by_cases h2 : r.rtype = "ip" <;> simp_all

/-- The set-correctness invariant of the accumulated results: the
`domains` and `ips` sets are duplicate-free and every recorded
relationship's `to` end is classified into the matching set. -/
def kindsInvariant (st : EngineState) : Prop :=
  st.domains.Nodup ∧ st.ips.Nodup ∧
    ∀ r ∈ st.relationships,
      (r.rtype = "domain" → r.rto ∈ st.domains) ∧
      (r.rtype = "ip" → r.rto ∈ st.ips)

theorem processResult_kinds (t : String) (d : Nat) (st : EngineState)
    (r : RawResult) (h : kindsInvariant st) :
    kindsInvariant (processResult t d st r) := by
  obtain ⟨hd, hi, hrel⟩ := h
  refine ⟨?_, ?_, ?_⟩
  · rw [processResult_domains]
    split
    · exact addElem_nodup _ _ hd
    · exact hd
  · rw [processResult_ips]
    split
    · exact addElem_nodup _ _ hi
    · exact hi
  · intro r' hr'
    rw [processResult_relationships] at hr'
    rcases List.mem_append.1 hr' with hr' | hr'
    · obtain ⟨h1, h2⟩ := hrel r' hr'
      constructor
      · intro ht; exact processResult_domains_subset t d st r (h1 ht)
      · intro ht; exact processResult_ips_subset t d st r (h2 ht)
    · simp only [List.mem_singleton] at hr'
      subst hr'
      refine ⟨fun ht => ?_, fun ht => ?_⟩
      · replace ht : r.rtype = "domain" := ht
        show r.value ∈ (processResult t d st r).domains
        rw [processResult_domains, if_pos ht]
        exact mem_addElem_self _ _
      · replace ht : r.rtype = "ip" := ht
        have hnd : r.rtype ≠ "domain" := by rw [ht]; decide
        show r.value ∈ (processResult t d st r).ips
        rw [processResult_ips, if_pos ⟨ht, hnd⟩]
        exact mem_addElem_self _ _

theorem finalState_kinds (cfg : EngineCfg) (t0 : String) :
    kindsInvariant (recursiveAnalyze cfg t0 0 none emptyState) := by
  refine recursiveAnalyze_preserve cfg kindsInvariant ?_ ?_ t0 0 none emptyState
    ⟨List.nodup_nil, List.nodup_nil, by simp [emptyState]⟩
  · intro s t hs _
    exact hs
  · intro t d ctx s hs _
    exact runStrategies_preserve kindsInvariant t d ctx
      (fun s' r hs' => processResult_kinds t d s' r hs') cfg.strategies s hs

/-! ### Claims C6, C10, C8 and C4 -/

/-- C6: in every result of `analyze` (over any strategy roster), a
relationship recorded with kind `'domain'` has its `to` value in the
result's `domains` collection, one recorded with kind `'ip'` has its
`to` value in `ips`, and the `domains` and `ips` collections contain no
duplicates. -/
theorem analyze_kind_membership (cfg : EngineCfg) (t0 : String) :
    (∀ r ∈ (analyze cfg t0).relationships,
        (r.rtype = "domain" → r.rto ∈ (analyze cfg t0).domains) ∧
        (r.rtype = "ip" → r.rto ∈ (analyze cfg t0).ips)) ∧
    (analyze cfg t0).domains.Nodup ∧ (analyze cfg t0).ips.Nodup := by
  obtain ⟨hd, hi, hrel⟩ := finalState_kinds cfg t0
  refine ⟨?_, ?_, ?_⟩
  · intro r hr
    obtain ⟨h1, h2⟩ := hrel r hr
    constructor
    · intro ht
      show r.rto ∈ List.insertionSort (· ≤ ·)
        (recursiveAnalyze cfg t0 0 none emptyState).domains
      exact (List.mem_insertionSort (· ≤ ·)).2 (h1 ht)
    · intro ht
      show r.rto ∈ List.insertionSort (· ≤ ·)
        (recursiveAnalyze cfg t0 0 none emptyState).ips
      exact (List.mem_insertionSort (· ≤ ·)).2 (h2 ht)
  · exact ((List.perm_insertionSort (· ≤ ·) _).nodup_iff).2 hd
  · exact ((List.perm_insertionSort (· ≤ ·) _).nodup_iff).2 hi

/-- A stub strategy that always discovers the single fixed domain
`"d.com"` (used by concrete witnesses). -/
def stratOne : StrategyFn := fun _ _ => .ok [⟨"domain", "d.com", "stub"⟩]

/-- Witness for C6 on a concrete run: the first recorded relationship
has kind `'domain'` and its `to` value is in the returned `domains`. -/
theorem analyze_kind_membership_witness :
    "d.com" ∈ (analyze ⟨[stratOne], 0⟩ "a.com").domains ∧
    (analyze ⟨[stratOne], 0⟩ "a.com").domains.Nodup := by
  refine ⟨?_, (analyze_kind_membership ⟨[stratOne], 0⟩ "a.com").2.1⟩
  have h := (analyze_kind_membership ⟨[stratOne], 0⟩ "a.com").1
    ⟨"a.com", "d.com", "domain", "stub", 0⟩ ?_
  · exact h.1 rfl
  · simp [analyze, analyzeWithState, recursiveAnalyze, recurseChildren,
      runStrategies, stratStep, processResult, addElem, addToGraph,
      stratOne, emptyState]

/-- C10: the dictionary returned by `analyze` presents `domains` and
`ips` as duplicate-free ascending-sorted lists, and its `stats` record
equals the lengths of the returned lists. -/
theorem analyze_output_sorted_stats (cfg : EngineCfg) (t0 : String) :
    List.Sorted (· ≤ ·) (analyze cfg t0).domains ∧
    (analyze cfg t0).domains.Nodup ∧
    List.Sorted (· ≤ ·) (analyze cfg t0).ips ∧
    (analyze cfg t0).ips.Nodup ∧
    (analyze cfg t0).stats.total_domains = (analyze cfg t0).domains.length ∧
    (analyze cfg t0).stats.total_ips = (analyze cfg t0).ips.length ∧
    (analyze cfg t0).stats.total_relationships
      = (analyze cfg t0).relationships.length := by
  obtain ⟨hd, hi, -⟩ := finalState_kinds cfg t0
  refine ⟨List.sorted_insertionSort _ _, ?_, List.sorted_insertionSort _ _, ?_,
    ?_, ?_, rfl⟩
  · exact ((List.perm_insertionSort (· ≤ ·) _).nodup_iff).2 hd
  · exact ((List.perm_insertionSort (· ≤ ·) _).nodup_iff).2 hi
  · exact (List.perm_insertionSort (· ≤ ·) _).length_eq.symm
  · exact (List.perm_insertionSort (· ≤ ·) _).length_eq.symm

/-- C8: with strategies modelled as (deterministic) functions of the
target and context, `analyze` resets all run-scoped state at entry
(recursive_engine.py lines 52-58), so a second consecutive `analyze`
call on the same engine instance returns a result identical to the
first — including the ordering of `relationships` — and more generally
the result is independent of any prior engine state. -/
theorem analyze_rerun_deterministic (cfg : EngineCfg) (prior : EngineState)
    (t0 : String) :
    analyzeWithState cfg ((analyzeWithState cfg prior t0).2) t0
      = analyzeWithState cfg prior t0 ∧
    ∀ s1 s2 : EngineState,
      analyzeWithState cfg s1 t0 = analyzeWithState cfg s2 t0 :=
  ⟨rfl, fun _ _ => rfl⟩

/-- Strategy A of the C4 cycle scenario: maps exactly `"x.com"` to the
single IP discovery `"1.2.3.4"`. -/
def stratA : StrategyFn := fun t _ =>
  if t = "x.com" then .ok [⟨"ip", "1.2.3.4", "A record of x.com"⟩] else .ok []

/-- Strategy B of the C4 cycle scenario: maps exactly `"1.2.3.4"` back
to the single domain discovery `"x.com"`. -/
def stratB : StrategyFn := fun t _ =>
  if t = "1.2.3.4" then .ok [⟨"domain", "x.com", "Reverse DNS of 1.2.3.4"⟩]
  else .ok []

/-- C4: the cycle scenario `analyze("x.com", maxDepth = 5)` with
strategies A and B terminates with `domains = {"x.com"}`,
`ips = {"1.2.3.4"}`, and exactly the two relationships
x.com→1.2.3.4 at depth 0 and 1.2.3.4→x.com at depth 1. -/
theorem analyze_cycle_scenario :
    (analyze ⟨[stratA, stratB], 5⟩ "x.com").domains = ["x.com"] ∧
    (analyze ⟨[stratA, stratB], 5⟩ "x.com").ips = ["1.2.3.4"] ∧
    (analyze ⟨[stratA, stratB], 5⟩ "x.com").relationships =
      [⟨"x.com", "1.2.3.4", "ip", "A record of x.com", 0⟩,
       ⟨"1.2.3.4", "x.com", "domain", "Reverse DNS of 1.2.3.4", 1⟩] := by
  refine ⟨?_, ?_, ?_⟩ <;>
    simp [analyze, analyzeWithState, recursiveAnalyze, recurseChildren,
      runStrategies, stratStep, processResult, addElem, addToGraph,
      stratA, stratB, emptyState, List.insertionSort, List.orderedInsert]

/-! ### Claim C3: per-strategy fault absorption -/

/-- A strategy call that raises leaves both the state and the
`discovered` accumulator unchanged (the `except` branch at
recursive_engine.py lines 153-157). -/
theorem stratStep_error (t : String) (d : Nat) (ctx : Ctx)
    (pr : EngineState × List String) (f : StrategyFn) (e : String)
    (hf : f t ctx = .error e) : stratStep t d ctx pr f = pr := by
  unfold stratStep
  rw [hf]

/-- Inserting an always-raising strategy anywhere in the roster leaves
the whole strategy loop unchanged. -/
theorem runStrategies_insert_error (pre post : List StrategyFn)
    (f : StrategyFn) (err : String) (hf : ∀ t c, f t c = Except.error err)
    (t : String) (d : Nat) (ctx : Ctx) (st : EngineState) :
    runStrategies (pre ++ f :: post) t d ctx st
      = runStrategies (pre ++ post) t d ctx st := by
  unfold runStrategies
  rw [List.foldl_append, List.foldl_append, List.foldl_cons,
    stratStep_error t d ctx _ f err (hf t ctx)]

mutual

/-- Two configurations with equal depth bound and extensionally equal
strategy loops produce identical traversals. -/
theorem recursiveAnalyze_congr (cfg1 cfg2 : EngineCfg)
    (hM : cfg1.maxDepth = cfg2.maxDepth)
    (hS : ∀ t d ctx st, runStrategies cfg1.strategies t d ctx st
        = runStrategies cfg2.strategies t d ctx st)
    (target : String) (depth : Nat) (parent : Option String)
    (st : EngineState) :
    recursiveAnalyze cfg1 target depth parent st
      = recursiveAnalyze cfg2 target depth parent st := by
  by_cases h : depth > cfg1.maxDepth
  · rw [recursiveAnalyze_depth_stop cfg1 target depth parent st h,
      recursiveAnalyze_depth_stop cfg2 target depth parent st (hM ▸ h)]
  · by_cases hv : target ∈ st.visited
    · rw [recursiveAnalyze_visited_stop cfg1 target depth parent st hv,
        recursiveAnalyze_visited_stop cfg2 target depth parent st hv]
    · rw [recursiveAnalyze, recursiveAnalyze,
        dif_neg h, dif_neg (hM ▸ h : ¬ depth > cfg2.maxDepth),
        if_neg hv, if_neg hv]
      simp only [hS]
      exact recurseChildren_congr cfg1 cfg2 hM hS _ target (depth + 1) _
termination_by (cfg1.maxDepth + 1 - depth, 0)

theorem recurseChildren_congr (cfg1 cfg2 : EngineCfg)
    (hM : cfg1.maxDepth = cfg2.maxDepth)
    (hS : ∀ t d ctx st, runStrategies cfg1.strategies t d ctx st
        = runStrategies cfg2.strategies t d ctx st)
    (items : List String) (parent : String) (depth : Nat)
    (st : EngineState) :
    recurseChildren cfg1 items parent depth st
      = recurseChildren cfg2 items parent depth st := by
  match items with
  | [] => rw [recurseChildren, recurseChildren]
  | d :: rest =>
    rw [recurseChildren, recurseChildren,
      recursiveAnalyze_congr cfg1 cfg2 hM hS d depth (some parent) st]
    exact recurseChildren_congr cfg1 cfg2 hM hS rest parent depth _
termination_by (cfg1.maxDepth + 1 - depth, items.length + 1)

end

/-- C3: a strategy whose `discover` raises on every call is absorbed at
the per-strategy boundary: `analyze` with the faulting strategy
inserted anywhere in the roster never propagates the exception (it is a
total function into `AnalyzeResult`) and returns exactly the result of
the roster without it — so the remaining strategies still run, the
recursion still proceeds, and every discovery of the non-faulting
strategies still appears in the result. -/
theorem analyze_fault_isolation (pre post : List StrategyFn)
    (f : StrategyFn) (err : String)
    (hf : ∀ t c, f t c = Except.error err) (M : Nat) (t0 : String) :
    analyze ⟨pre ++ f :: post, M⟩ t0 = analyze ⟨pre ++ post, M⟩ t0 := by
  unfold analyze analyzeWithState
  rw [recursiveAnalyze_congr ⟨pre ++ f :: post, M⟩ ⟨pre ++ post, M⟩ rfl
    (fun t d ctx st => runStrategies_insert_error pre post f err hf t d ctx st)
    t0 0 none emptyState]

/-- A strategy stub that always raises (for the C3 witness). -/
def faultyStrat : StrategyFn := fun _ _ => .error "boom"

/-- Witness for C3, the spec's failure-isolation test: with a roster of
the always-faulting stub followed by the fixed-discovery stub
`stratOne`, `analyze` equals the run without the faulting stub and the
fixed discovery's value still appears in the returned `domains`. -/
theorem analyze_fault_isolation_witness :
    analyze ⟨[faultyStrat, stratOne], 3⟩ "seed.com"
      = analyze ⟨[stratOne], 3⟩ "seed.com" ∧
    "d.com" ∈ (analyze ⟨[faultyStrat, stratOne], 3⟩ "seed.com").domains := by
  have h := analyze_fault_isolation [] [stratOne] faultyStrat "boom"
    (fun _ _ => rfl) 3 "seed.com"
  refine ⟨h, ?_⟩
  rw [show analyze ⟨[faultyStrat, stratOne], 3⟩ "seed.com"
      = analyze ⟨[stratOne], 3⟩ "seed.com" from h]
  simp [analyze, analyzeWithState, recursiveAnalyze, recurseChildren,
    runStrategies, stratStep, processResult, addElem, addToGraph,
    stratOne, emptyState, List.insertionSort, List.orderedInsert]

/-! ### Strategy-level embedding (tld_crawler.py, srv_scanner.py,
reverse_dns.py)

At the strategy level a result is the Python value built by
`_create_result`: `reverse_dns.py` builds a tuple (hashable), while
`tld_crawler.py` and `srv_scanner.py` build a dict (unhashable).
Adding an unhashable value to a Python set raises `TypeError`, which
the embedding makes explicit in `pySetAdd`.  Metadata values are
rendered as strings (integers by their decimal numerals), which
preserves equality of results. -/

/-- Embedding of `tuple(sorted(metadata.items()))`: metadata items sorted by key
(all metadata dicts in the sources have distinct keys). -/
def sortMeta (m : List (String × String)) : List (String × String) :=
  List.insertionSort (fun a b => a.1 ≤ b.1) m

/-- A value built by a strategy's `_create_result`: either the tuple
shape `(type, value, source, metadata)` or the dict shape with the same
fields.  Only the tuple shape is hashable in Python. -/
inductive PyResult where
  | tup (rtype value source : String) (metadata : List (String × String))
  | dict (rtype value source : String) (metadata : List (String × String))
deriving DecidableEq, Repr

/-- The `type` field of a strategy result. -/
def PyResult.rtypeOf : PyResult → String
  | .tup t _ _ _ => t
  | .dict t _ _ _ => t

/-- The `value` field of a strategy result. -/
def PyResult.valueOf : PyResult → String
  | .tup _ v _ _ => v
  | .dict _ v _ _ => v

/-- Python's `TypeError` message when a dict is added to a set. -/
def unhashableMsg : String := "TypeError: unhashable type: 'dict'"

/-- Python `set.add`: raises `TypeError` on an unhashable (dict)
element, otherwise inserts (deduplicating). -/
def pySetAdd (s : List PyResult) (x : PyResult) :
    Except String (List PyResult) :=
  match x with
  | .dict _ _ _ _ => .error unhashableMsg
  | .tup _ _ _ _ => .ok (if x ∈ s then s else s ++ [x])

/-- Python `set.add` for the hashable tuple shape (never raises). -/
def addTup (s : List PyResult) (x : PyResult) : List PyResult :=
  if x ∈ s then s else s ++ [x]

/-- The DNS resolution capability consumed by the strategies:
`query_dns` (returns `[]` on any failure) and `reverse_dns` (returns
`none` on any failure), per dns_functions.py. -/
structure Resolver where
  query : String → String → List String
  rev : String → Option String

/-- The set `TLDCrawlerStrategy.COMMON_TLDS` (tld_crawler.py lines 15-22). -/
def COMMON_TLDS : List String :=
  ["com", "org", "net", "edu", "gov", "mil", "int",
   "fr", "de", "uk", "it", "es", "nl", "be", "ch",
   "ca", "au", "jp", "cn", "in", "br", "ru",
   "co.uk", "gouv.fr", "ac.uk", "gov.uk", "com.au",
   "co.jp", "ne.jp", "or.jp", "go.jp"]

/-- Embedding of `TLDCrawlerStrategy._find_tld_index` (tld_crawler.py lines 80-101). -/
def find_tld_index (parts : List String) : Option Nat :=
  if parts.length ≥ 2 ∧
      String.intercalate "." (parts.drop (parts.length - 2)) ∈ COMMON_TLDS then
    some (parts.length - 2)
  else if parts.length ≥ 1 ∧ parts.getLastD "" ∈ COMMON_TLDS then
    some (parts.length - 1)
  else if parts.length > 0 then some (parts.length - 1)
  else none

/-- Embedding of `TLDCrawlerStrategy._domain_exists` (tld_crawler.py lines 107-115). -/
def domain_exists (res : Resolver) (domain : String) : Bool :=
  ["A", "AAAA", "MX", "NS", "SOA"].any
    (fun record_type => !(res.query domain record_type).isEmpty)

/-- The loop body of `TLDCrawlerStrategy.discover` (tld_crawler.py
lines 60-76): for each index, build the parent suffix, `break` on the
TLD itself, and on an existing non-excluded parent add a dict result —
which raises `TypeError` inside `set.add`. -/
def tldLoop (res : Resolver) (excl : List String) (target : String)
    (parts : List String) :
    List Nat → List PyResult → Except String (List PyResult)
  | [], acc => .ok acc
  | i :: rest, acc =>
    let parent_domain := String.intercalate "." (parts.drop (i + 1))
    if parent_domain ∈ COMMON_TLDS then .ok acc
    else if domain_exists res parent_domain &&
        !(should_exclude excl parent_domain) then
      match pySetAdd acc (.dict "domain" parent_domain
          ("Parent domain of " ++ target)
          (sortMeta [("relationship", "parent"),
                     ("levels_up", toString (i + 1))])) with
      | .error e => .error e
      | .ok acc' => tldLoop res excl target parts rest acc'
    else tldLoop res excl target parts rest acc

/-- Embedding of `TLDCrawlerStrategy.discover` (tld_crawler.py lines 28-78). -/
def tldDiscover (res : Resolver) (excl : List String) (target : String) :
    Except String (List PyResult) :=
  let domain := rstripDots (pyLower target)
  if !is_valid_domain domain then .ok []
  else
    let parts := pySplit '.' domain
    match find_tld_index parts with
    | none => .ok []
    | some tldIndex =>
      tldLoop res excl target parts
        (List.range (parts.length - tldIndex - 1)) []

/-- The list `SRVScannerStrategy.COMMON_SERVICES` (srv_scanner.py lines 10-55). -/
def COMMON_SERVICES : List (String × String) :=
  [("_sip", "_tcp"), ("_sip", "_udp"), ("_sips", "_tcp"),
   ("_xmpp-client", "_tcp"), ("_xmpp-server", "_tcp"), ("_jabber", "_tcp"),
   ("_submission", "_tcp"), ("_imap", "_tcp"), ("_imaps", "_tcp"),
   ("_pop3", "_tcp"), ("_pop3s", "_tcp"),
   ("_ldap", "_tcp"), ("_ldaps", "_tcp"), ("_gc", "_tcp"),
   ("_kerberos", "_tcp"), ("_kerberos", "_udp"),
   ("_kerberos-master", "_tcp"), ("_kerberos-master", "_udp"),
   ("_kpasswd", "_tcp"), ("_kpasswd", "_udp"),
   ("_caldav", "_tcp"), ("_caldavs", "_tcp"),
   ("_carddav", "_tcp"), ("_carddavs", "_tcp"),
   ("_sipfederationtls", "_tcp"), ("_autodiscover", "_tcp"),
   ("_matrix", "_tcp"), ("_minecraft", "_tcp"), ("_teamspeak", "_udp")]

/-- Python `str.split()` with no argument: split on whitespace runs,
discarding empty pieces. -/
def pyWords (s : String) : List String :=
  (splitOnP Char.isWhitespace s.data).map (fun l => (⟨l⟩ : String))
    |>.filter (fun w => w ≠ "")

/-- The record loop of `SRVScannerStrategy.discover` (srv_scanner.py
lines 80-101): each well-formed, valid, non-excluded SRV target is
added to the result set as a dict — raising `TypeError`. -/
def srvRecLoop (excl : List String) (srv_query service protocol : String) :
    List String → List PyResult → Except String (List PyResult)
  | [], acc => .ok acc
  | record :: rest, acc =>
    let parts := pyWords record
    if parts.length ≥ 4 then
      let priority := parts.getD 0 ""
      let weight := parts.getD 1 ""
      let port := parts.getD 2 ""
      let srv_target := rstripDots (parts.getD 3 "")
      if is_valid_domain srv_target && !(should_exclude excl srv_target) then
        match pySetAdd acc (.dict "domain" srv_target
            ("SRV record " ++ srv_query)
            (sortMeta [("service", service), ("protocol", protocol),
                       ("priority", priority), ("weight", weight),
                       ("port", port)])) with
        | .error e => .error e
        | .ok acc' => srvRecLoop excl srv_query service protocol rest acc'
      else srvRecLoop excl srv_query service protocol rest acc
    else srvRecLoop excl srv_query service protocol rest acc

/-- The service loop of `SRVScannerStrategy.discover` (srv_scanner.py
lines 75-101). -/
def srvServiceLoop (res : Resolver) (excl : List String) (target : String) :
    List (String × String) → List PyResult → Except String (List PyResult)
  | [], acc => .ok acc
  | (service, protocol) :: rest, acc =>
    let srv_query := service ++ "." ++ protocol ++ "." ++ target
    match srvRecLoop excl srv_query service protocol
        (res.query srv_query "SRV") acc with
    | .error e => .error e
    | .ok acc' => srvServiceLoop res excl target rest acc'

/-- Embedding of `SRVScannerStrategy.discover` (srv_scanner.py lines 61-103). -/
def srvDiscover (res : Resolver) (excl : List String) (target : String) :
    Except String (List PyResult) :=
  if !is_valid_domain target then .ok []
  else srvServiceLoop res excl target COMMON_SERVICES []

/-- Embedding of `ReverseDNSStrategy.discover` (reverse_dns.py lines 17-71); its
`_create_result` builds hashable tuples, so no call raises and the
result is a plain set. -/
def reverseDnsDiscover (res : Resolver) (excl : List String)
    (target : String) : List PyResult :=
  if is_valid_ip target then
    match res.rev target with
    | some ptr_domain =>
      if ptr_domain ≠ "" && !(should_exclude excl ptr_domain) then
        addTup [] (.tup "domain" ptr_domain ("Reverse DNS of " ++ target)
          (sortMeta [("ip", target)]))
      else []
    | none => []
  else if !is_valid_domain target then []
  else
    let ips := res.query target "A" ++ res.query target "AAAA"
    ips.foldl (fun acc ip0 =>
      let ip := pyStrip ip0
      let acc1 := addTup acc (.tup "ip" ip ("A/AAAA record of " ++ target)
        (sortMeta [("version", if ip.data.contains ':' then "v6" else "v4")]))
      match res.rev ip with
      | some ptr_domain =>
        if ptr_domain ≠ "" && !(should_exclude excl ptr_domain) then
          addTup acc1 (.tup "domain" ptr_domain
            ("Reverse DNS of " ++ ip ++ " (from " ++ target ++ ")")
            (sortMeta [("ip", ip), ("original_domain", target)]))
        else acc1
      | none => acc1) []

/-! ### Claim C9: the dict results of TLDCrawler and SRVScanner are
unhashable -/

/-- The engine's normalization (recursive_engine.py lines 112-125)
applied to a strategy-level result value: both the tuple and the dict
shape yield the same `(type, value, source)` triple. -/
def normalizePy (r : PyResult) : RawResult :=
  match r with
  | .tup t v s _ => ⟨t, v, s⟩
  | .dict t v s _ => ⟨t, v, s⟩

/-- The strategy `TLDCrawlerStrategy` as seen by the engine. -/
def tldStrategyFn (res : Resolver) (excl : List String) : StrategyFn :=
  fun target _ => (tldDiscover res excl target).map (List.map normalizePy)

/-- The strategy `SRVScannerStrategy` as seen by the engine. -/
def srvStrategyFn (res : Resolver) (excl : List String) : StrategyFn :=
  fun target _ => (srvDiscover res excl target).map (List.map normalizePy)

/-- Whether the crawl loop reaches a candidate that passes the TLD
break, the existence check and the exclusion filter — i.e. whether
`discover` reaches its `results.add`. -/
def tldLoopHits (res : Resolver) (excl : List String) (parts : List String) :
    List Nat → Bool
  | [] => false
  | i :: rest =>
    let parent_domain := String.intercalate "." (parts.drop (i + 1))
    if parent_domain ∈ COMMON_TLDS then false
    else if domain_exists res parent_domain &&
        !(should_exclude excl parent_domain) then true
    else tldLoopHits res excl parts rest

/-- Whether `TLDCrawlerStrategy.discover` finds at least one passing
candidate on this target. -/
def tldHasCandidate (res : Resolver) (excl : List String) (target : String) :
    Bool :=
  let domain := rstripDots (pyLower target)
  if !is_valid_domain domain then false
  else
    let parts := pySplit '.' domain
    match find_tld_index parts with
    | none => false
    | some tldIndex =>
      tldLoopHits res excl parts (List.range (parts.length - tldIndex - 1))

/-- Whether some SRV answer record for one query passes the
well-formedness, validity and exclusion filters. -/
def srvRecHits (excl : List String) : List String → Bool
  | [] => false
  | record :: rest =>
    let parts := pyWords record
    if parts.length ≥ 4 then
      let srv_target := rstripDots (parts.getD 3 "")
      if is_valid_domain srv_target && !(should_exclude excl srv_target) then
        true
      else srvRecHits excl rest
    else srvRecHits excl rest

/-- Whether some service/protocol pair yields a passing SRV target. -/
def srvHits (res : Resolver) (excl : List String) (target : String) :
    List (String × String) → Bool
  | [] => false
  | (service, protocol) :: rest =>
    if srvRecHits excl
        (res.query (service ++ "." ++ protocol ++ "." ++ target) "SRV") then
      true
    else srvHits res excl target rest

/-- Whether `SRVScannerStrategy.discover` finds at least one passing
candidate on this target. -/
def srvHasCandidate (res : Resolver) (excl : List String) (target : String) :
    Bool :=
  if !is_valid_domain target then false
  else srvHits res excl target COMMON_SERVICES

theorem tldLoop_empty_spec (res : Resolver) (excl : List String)
    (target : String) (parts : List String) (idxs : List Nat) :
    tldLoop res excl target parts idxs [] =
      if tldLoopHits res excl parts idxs then Except.error unhashableMsg
      else Except.ok [] := by
  induction idxs with
  | nil => rfl
  | cons i rest ih =>
    by_cases h1 : String.intercalate "." (parts.drop (i + 1)) ∈ COMMON_TLDS
    · simp [tldLoop, tldLoopHits, h1]
    · by_cases h2 : domain_exists res (String.intercalate "." (parts.drop (i + 1))) &&
          !(should_exclude excl (String.intercalate "." (parts.drop (i + 1))))
      · simp [tldLoop, tldLoopHits, h1, h2, pySetAdd]
      · simp [tldLoop, tldLoopHits, h1, h2, ih]

theorem tldDiscover_spec (res : Resolver) (excl : List String)
    (target : String) :
    tldDiscover res excl target =
      if tldHasCandidate res excl target then Except.error unhashableMsg
      else Except.ok [] := by
  unfold tldDiscover tldHasCandidate
  by_cases hv : is_valid_domain (rstripDots (pyLower target))
  · simp only [hv, Bool.not_true, Bool.false_eq_true, if_false]
    cases h : find_tld_index (pySplit '.' (rstripDots (pyLower target))) with
    | none => simp
    | some k => simp [tldLoop_empty_spec]
  · simp [hv]

theorem srvRecLoop_empty_spec (excl : List String)
    (srv_query service protocol : String) (records : List String) :
    srvRecLoop excl srv_query service protocol records [] =
      if srvRecHits excl records then Except.error unhashableMsg
      else Except.ok [] := by
  induction records with
  | nil => rfl
  | cons record rest ih =>
    simp only [srvRecLoop, srvRecHits]
    split
    · split
      · simp [pySetAdd]
      · simp [ih]
    · simp [ih]

theorem srvServiceLoop_empty_spec (res : Resolver) (excl : List String)
    (target : String) (svcs : List (String × String)) :
    srvServiceLoop res excl target svcs [] =
      if srvHits res excl target svcs then Except.error unhashableMsg
      else Except.ok [] := by
  induction svcs with
  | nil => rfl
  | cons sp rest ih =>
    obtain ⟨service, protocol⟩ := sp
    by_cases h : srvRecHits excl
        (res.query (service ++ "." ++ protocol ++ "." ++ target) "SRV")
    · simp [srvServiceLoop, srvHits, srvRecLoop_empty_spec, h]
    · simp [srvServiceLoop, srvHits, srvRecLoop_empty_spec, h, ih]

theorem srvDiscover_spec (res : Resolver) (excl : List String)
    (target : String) :
    srvDiscover res excl target =
      if srvHasCandidate res excl target then Except.error unhashableMsg
      else Except.ok [] := by
  unfold srvDiscover srvHasCandidate
  by_cases hv : is_valid_domain target
  · simp [hv, srvServiceLoop_empty_spec]
  · simp [hv]

/-- C9: whenever `TLDCrawlerStrategy.discover` or
`SRVScannerStrategy.discover` finds at least one candidate passing its
validity, existence and exclusion filters, it raises `TypeError` before
returning — its `_create_result` builds a dict, and Python dicts are
unhashable, so `set.add` raises; otherwise it returns the empty set.
Consequently, under the engine's per-strategy exception absorption,
neither strategy ever contributes a discovery: the engine's strategy
step is a no-op for both. -/
theorem tld_srv_unhashable_dict (res : Resolver) (excl : List String)
    (target : String) :
    (tldHasCandidate res excl target = true →
        tldDiscover res excl target = Except.error unhashableMsg) ∧
    (tldHasCandidate res excl target = false →
        tldDiscover res excl target = Except.ok []) ∧
    (srvHasCandidate res excl target = true →
        srvDiscover res excl target = Except.error unhashableMsg) ∧
    (srvHasCandidate res excl target = false →
        srvDiscover res excl target = Except.ok []) ∧
    (∀ t d ctx pr, stratStep t d ctx pr (tldStrategyFn res excl) = pr) ∧
    (∀ t d ctx pr, stratStep t d ctx pr (srvStrategyFn res excl) = pr) := by
  refine ⟨?_, ?_, ?_, ?_, ?_, ?_⟩
  · intro h; rw [tldDiscover_spec, if_pos h]
  · intro h; rw [tldDiscover_spec, if_neg (by simp [h])]
  · intro h; rw [srvDiscover_spec, if_pos h]
  · intro h; rw [srvDiscover_spec, if_neg (by simp [h])]
  · intro t d ctx pr
    unfold stratStep tldStrategyFn
    rw [tldDiscover_spec]
    by_cases h : tldHasCandidate res excl t
    · rw [if_pos h]; rfl
    · rw [if_neg h]; rfl
  · intro t d ctx pr
    unfold stratStep srvStrategyFn
    rw [srvDiscover_spec]
    by_cases h : srvHasCandidate res excl t
    · rw [if_pos h]; rfl
    · rw [if_neg h]; rfl

/-- Resolver stub for the C9 witness: `b.gouv.fr` has an A record and
`_sip._tcp.example.com` has one SRV answer. -/
def resW9 : Resolver :=
  ⟨fun d rt =>
    if d = "b.gouv.fr" ∧ rt = "A" then ["192.0.2.7"]
    else if d = "_sip._tcp.example.com" ∧ rt = "SRV" then
      ["0 0 443 sip.example.com."]
    else [],
   fun _ => none⟩

/-- Witness for C9: on concrete inputs where a candidate passes the
filters, both strategies raise the `TypeError`. -/
theorem tld_srv_unhashable_dict_witness :
    tldDiscover resW9 [] "a.b.gouv.fr" = Except.error unhashableMsg ∧
    srvDiscover resW9 [] "example.com" = Except.error unhashableMsg := by
  exact ⟨(tld_srv_unhashable_dict resW9 [] "a.b.gouv.fr").1 (by decide),
         (tld_srv_unhashable_dict resW9 [] "example.com").2.2.1 (by decide)⟩

/-! ### Claim C5: the TLD-boundary scenario -/

/-- Resolver for the C5 scenario: `b.c.gouv.fr` and `c.gouv.fr` both
have an A record; everything else resolves to nothing. -/
def resC5 : Resolver :=
  ⟨fun d rt =>
    if (d = "b.c.gouv.fr" ∨ d = "c.gouv.fr") ∧ rt = "A" then ["192.0.2.1"]
    else [],
   fun _ => none⟩

/-- C5 evaluated on the code: on input `"a.b.c.gouv.fr"` with
`"gouv.fr"` recognized and both claimed parents existing and not
excluded, `discover` does not return the two candidate parents — it
raises `TypeError` at its first `results.add` (the dict built by
`_create_result` is unhashable).  Moreover the loop bound
`range(len(parts) - tld_index - 1)` evaluates to `range(1)`, so the
only suffix the loop ever examines is `"b.c.gouv.fr"`; `"c.gouv.fr"`
is never considered (the third conjunct lists every candidate the loop
builds, contradicting the docstring's walk down to the TLD). -/
theorem tld_crawler_gouv_fr_scenario :
    tldDiscover resC5 [] "a.b.c.gouv.fr" = Except.error unhashableMsg ∧
    find_tld_index (pySplit '.' "a.b.c.gouv.fr") = some 3 ∧
    (List.range ((pySplit '.' "a.b.c.gouv.fr").length - 3 - 1)).map
        (fun i => String.intercalate "."
          ((pySplit '.' "a.b.c.gouv.fr").drop (i + 1)))
      = ["b.c.gouv.fr"] := by
  refine ⟨rfl, rfl, ?_⟩
  rfl

/-! ### Claim C7: exclusion enforcement -/

theorem pfx_iff (n h : List Char) : pfx n h = true ↔ ∃ rest, h = n ++ rest := by
  induction n generalizing h with
  | nil => simp [pfx]
  | cons a as ih =>
    cases h with
    | nil => simp [pfx]
    | cons b bs =>
      simp only [pfx, Bool.and_eq_true, beq_iff_eq, ih, List.cons_append,
        List.cons.injEq]
      constructor
      · rintro ⟨rfl, rest, rfl⟩
        exact ⟨rest, rfl, rfl⟩
      · rintro ⟨rest, rfl, rfl⟩
        exact ⟨rfl, rest, rfl⟩

theorem subOf_iff (n h : List Char) :
    subOf n h = true ↔ ∃ pre post, h = pre ++ n ++ post := by
  induction h with
  | nil =>
    simp only [subOf, List.isEmpty_iff]
    constructor
    · rintro rfl
      exact ⟨[], [], rfl⟩
    · rintro ⟨pre, post, hp⟩
      have hlen := congrArg List.length hp
      simp [List.length_append] at hlen
      exact List.length_eq_zero.1 (by omega)
  | cons c t ih =>
    simp only [subOf, Bool.or_eq_true, pfx_iff, ih]
    constructor
    · rintro (⟨rest, hr⟩ | ⟨pre, post, rfl⟩)
      · exact ⟨[], rest, by simpa using hr⟩
      · exact ⟨c :: pre, post, rfl⟩
    · rintro ⟨pre, post, hp⟩
      cases pre with
      | nil =>
        exact Or.inl ⟨post, by simpa using hp⟩
      | cons x xs =>
        simp only [List.cons_append, List.cons.injEq, List.append_assoc] at hp
        exact Or.inr ⟨xs, post, by simp [hp.2]⟩

theorem addTup_mem {s : List PyResult} {x r : PyResult}
    (h : r ∈ addTup s x) : r ∈ s ∨ r = x := by
  unfold addTup at h
  split at h
  · exact Or.inl h
  · rcases List.mem_append.1 h with h | h
    · exact Or.inl h
    · simp only [List.mem_singleton] at h
      exact Or.inr h

theorem reverseDns_domains_filtered (res : Resolver) (excl : List String)
    (target : String) :
    ∀ r ∈ reverseDnsDiscover res excl target,
      r.rtypeOf = "domain" → should_exclude excl r.valueOf = false := by
  unfold reverseDnsDiscover
  split
  · split
    · next ptr_domain _ =>
      split
      · next hg =>
        intro r hr _
        rcases addTup_mem hr with h | h
        · simp at h
        · subst h
          show should_exclude excl ptr_domain = false
          simp only [Bool.and_eq_true] at hg
          simpa using hg.2
      · intro r hr
        simp at hr
    · intro r hr
      simp at hr
  · split
    · intro r hr
      simp at hr
    · refine foldl_pres
        (fun acc : List PyResult => ∀ r ∈ acc, r.rtypeOf = "domain" →
          should_exclude excl r.valueOf = false) _ _ []
        (by intro r hr; simp at hr) ?_
      intro acc ip0 hacc
      have hacc1 : ∀ r : PyResult, r ∈ addTup acc
          (PyResult.tup "ip" (pyStrip ip0) ("A/AAAA record of " ++ target)
            (sortMeta [("version",
              if (pyStrip ip0).data.contains ':' then "v6" else "v4")])) →
          r.rtypeOf = "domain" → should_exclude excl r.valueOf = false := by
        intro r hr ht
        rcases addTup_mem hr with h | h
        · exact hacc r h ht
        · subst h
          simp [PyResult.rtypeOf] at ht
      dsimp only
      split
      · next ptr_domain _ =>
        split
        · next hg =>
          intro r hr ht
          rcases addTup_mem hr with h | h
          · exact hacc1 r h ht
          · subst h
            show should_exclude excl ptr_domain = false
            simp only [Bool.and_eq_true] at hg
            simpa using hg.2
        · exact hacc1
      · exact hacc1

/-- Resolver for the C7 counterexample: `x.com` has the single A
record `1.2.3.4`; no reverse lookups succeed. -/
def resC7 : Resolver :=
  ⟨fun d rt => if d = "x.com" ∧ rt = "A" then ["1.2.3.4"] else [],
   fun _ => none⟩

/-- C7 counterexample: with exclusion set `{"1.2"}`,
`ReverseDNSStrategy.discover("x.com")` returns the IP discovery
`"1.2.3.4"` even though its value contains the excluded substring
`"1.2"` (the A/AAAA addition at reverse_dns.py line 54 has no
`should_exclude` check) — refuting the claim that no concrete
strategy's discover ever includes a discovery whose value contains an
excluded substring. -/
theorem reverse_dns_emits_excluded_ip :
    (PyResult.tup "ip" "1.2.3.4" "A/AAAA record of x.com" [("version", "v4")])
      ∈ reverseDnsDiscover resC7 ["1.2"] "x.com" ∧
    should_exclude ["1.2"] "1.2.3.4" = true := by decide

/-- C7 as amended: `should_exclude(candidate)` is true exactly when
some member of the exclusion set occurs as a contiguous substring of
the candidate; and the domain-kind discoveries of
`ReverseDNSStrategy.discover` are always exclusion-filtered (its
IP-kind A/AAAA discoveries, however, are emitted without the check —
see the counterexample). -/
theorem exclusion_substring_and_domain_filtering :
    (∀ excl c, should_exclude excl c = true ↔
        ∃ e ∈ excl, ∃ pre post : List Char, c.data = pre ++ e.data ++ post) ∧
    (∀ res excl target r, r ∈ reverseDnsDiscover res excl target →
        r.rtypeOf = "domain" → should_exclude excl r.valueOf = false) := by
  constructor
  · intro excl c
    simp only [should_exclude, List.any_eq_true, subOf_iff]
  · intro res excl target r hr ht
    exact reverseDns_domains_filtered res excl target r hr ht

/-- Resolver for the C7 witness: the PTR of `5.6.7.8` is the
non-excluded `ok.example.net`; for the spec's scenario variant,
`9.9.9.9`'s PTR is `d111.cloudfront.net`. -/
def resW7 : Resolver :=
  ⟨fun _ _ => [],
   fun ip => if ip = "5.6.7.8" then some "ok.example.net"
             else if ip = "9.9.9.9" then some "d111.cloudfront.net"
             else none⟩

/-- Witness for C7 (amended): the substring characterization at the
spec's example, the filtering of a concrete domain discovery, and the
spec's cloudfront scenario — a strategy that internally finds
`d111.cloudfront.net` under exclusion set `{"cloudfront.net"}` emits
no discovery at all. -/
theorem exclusion_substring_and_domain_filtering_witness :
    (∃ e ∈ ["cloudfront.net"], ∃ pre post : List Char,
        "d111.cloudfront.net".data = pre ++ e.data ++ post) ∧
    should_exclude ["cloudfront.net"] "ok.example.net" = false ∧
    reverseDnsDiscover resW7 ["cloudfront.net"] "9.9.9.9" = [] := by
  refine ⟨(exclusion_substring_and_domain_filtering.1 ["cloudfront.net"]
      "d111.cloudfront.net").1 (by decide), ?_, by decide⟩
  exact exclusion_substring_and_domain_filtering.2 resW7 ["cloudfront.net"]
    "5.6.7.8"
    (PyResult.tup "domain" "ok.example.net" "Reverse DNS of 5.6.7.8"
      [("ip", "5.6.7.8")])
    (by decide) rfl

end DnsMapper
